import Mathlib

/-!
Shallow embedding of the request-execution pipeline of the iptuapi Go SDK
(`Client.doRequest`, `Client.handleErrorResponse`, `Client.extractRateLimit`,
`Client.calculateDelay`, `Client.isRetryable`) together with the retry /
error-classification / rate-limit-tracking properties stated in the design
document.  Network effects are modelled by an environment oracle giving, per
attempt index, the outcome of `httpClient.Do` / `io.ReadAll`, and whether the
caller's context fires during the backoff wait before that attempt.
-/

namespace Iptuapi

/-- Request/response bodies as byte lists. -/
abbrev Bytes := List Nat

/-- Header collection; `headerGet` mirrors `http.Header.Get` (first value,
exact key, `""` when absent; MIME canonicalisation is not modelled and all
concrete inputs use canonical keys). -/
abbrev HeaderMap := List (String × String)

def headerGet (headers : HeaderMap) (key : String) : String :=
  match headers.find? (fun p => p.1 == key) with
  | some p => p.2
  | none => ""

/-- Digit run to a natural number, base 10. -/
def digitsToNat (cs : List Char) : Nat :=
  cs.foldl (fun acc c => 10 * acc + (c.toNat - 48)) 0

/-- Successful `strconv.ParseInt(s, 10, 64)` / `strconv.Atoi`: optional sign
followed by at least one digit, full match.  64-bit range clamping is not
modelled (irrelevant at the magnitudes the claims use). -/
def parseGoInt (s : String) : Option Int :=
  match s.data with
  | [] => none
  | c :: rest =>
    let signDigits : Int × List Char :=
      if c = '-' then (-1, rest)
      else if c = '+' then (1, rest)
      else (1, c :: rest)
    if signDigits.2 ≠ [] ∧ signDigits.2.all Char.isDigit then
      some (signDigits.1 * (digitsToNat signDigits.2 : Int))
    else none

/-- `strconv.Atoi` / `ParseInt` with the returned error discarded (`_`), as in
`extractRateLimit` and the `Retry-After` parse: Go yields 0 on a syntax error. -/
def atoiIgnoreError (s : String) : Int := (parseGoInt s).getD 0

/-- Go struct `RetryConfig`.  `MaxRetries` is used only as a non-negative loop
bound, so it is a `Nat`; durations and the float64 backoff factor are modelled
over `ℚ`. -/
structure RetryConfig where
  maxRetries : Nat
  initialDelay : ℚ
  maxDelay : ℚ
  backoffFactor : ℚ
  retryableStatus : List Nat
deriving DecidableEq

/-- Go `DefaultRetryConfig()` (durations in nanoseconds). -/
def DefaultRetryConfig : RetryConfig :=
  { maxRetries := 3
    initialDelay := 500000000
    maxDelay := 10000000000
    backoffFactor := 2
    retryableStatus := [429, 500, 502, 503, 504] }

/-- Go struct `RateLimitInfo`; the derived `ResetTime = time.Unix(Reset, 0)`
field is determined by `reset` and is not modelled separately. -/
structure RateLimitInfo where
  limit : Int
  remaining : Int
  reset : Int
deriving DecidableEq

/-- The mutable fields of Go's `Client` touched by the pipeline:
`Client.RateLimit` (nil pointer modelled as `none`) and `Client.LastRequestID`. -/
structure ClientState where
  rateLimit : Option RateLimitInfo
  lastRequestID : String
deriving DecidableEq

/-- `Client.extractRateLimit`: the snapshot is replaced when the three numeric
headers are all non-empty; `strconv` errors are discarded in the source, so an
unparseable present header stores 0.  `LastRequestID` is overwritten
unconditionally with the (possibly empty) `X-Request-ID` value. -/
def extractRateLimit (st : ClientState) (headers : HeaderMap) : ClientState :=
  let limit := headerGet headers "X-RateLimit-Limit"
  let remaining := headerGet headers "X-RateLimit-Remaining"
  let reset := headerGet headers "X-RateLimit-Reset"
  let info : RateLimitInfo :=
    { limit := atoiIgnoreError limit
      remaining := atoiIgnoreError remaining
      reset := atoiIgnoreError reset }
  let st1 :=
    if limit ≠ "" ∧ remaining ≠ "" ∧ reset ≠ "" then
      { st with rateLimit := some info }
    else st
  { st1 with lastRequestID := headerGet headers "X-Request-ID" }

/-- Go struct `FieldError`. -/
structure FieldError where
  field : String
  message : String
deriving DecidableEq

/-- The anonymous struct `handleErrorResponse` unmarshals the error body into.
A body that fails to parse as JSON leaves the zero value (`json.Unmarshal`'s
error is discarded in the source). -/
structure ErrResp where
  detail : String
  requiredPlan : String
  errors : List FieldError
deriving DecidableEq

/-- Zero value of `ErrResp`: what a malformed JSON body yields. -/
def ErrResp.zero : ErrResp := { detail := "", requiredPlan := "", errors := [] }

/-- Go struct `APIError` (the `ResponseBody` map is not modelled). -/
structure APIError where
  statusCode : Nat
  message : String
  requestID : String
deriving DecidableEq

/-- The closed set of typed errors `handleErrorResponse` can return:
`AuthenticationError`, `ForbiddenError`, `NotFoundError`, `RateLimitError`,
`ValidationError`, `ServerError`, or the bare `*APIError`. -/
inductive ClassifiedError where
  | authentication (e : APIError)
  | forbidden (e : APIError) (requiredPlan : String)
  | notFound (e : APIError)
  | rateLimit (e : APIError) (retryAfter : Int) (limit : Int) (remaining : Int)
  | validation (e : APIError) (errors : List FieldError)
  | server (e : APIError)
  | plain (e : APIError)
deriving DecidableEq

/-- The error kinds named by the design document's classification table. -/
inductive ErrorKind where
  | authentication
  | forbidden
  | notFound
  | rateLimit
  | validation
  | server
  | unknown
deriving DecidableEq

def ClassifiedError.kind : ClassifiedError → ErrorKind
  | .authentication _ => .authentication
  | .forbidden _ _ => .forbidden
  | .notFound _ => .notFound
  | .rateLimit _ _ _ _ => .rateLimit
  | .validation _ _ => .validation
  | .server _ => .server
  | .plain _ => .unknown

def ClassifiedError.base : ClassifiedError → APIError
  | .authentication e => e
  | .forbidden e _ => e
  | .notFound e => e
  | .rateLimit e _ _ _ => e
  | .validation e _ => e
  | .server e => e
  | .plain e => e

/-- Modelled from the spec: the status-code → kind table of §4.2 of the design
document, stated independently of the source to compare the classifier
against. -/
def specTableKind (status : Nat) : ErrorKind :=
  if status = 401 then .authentication
  else if status = 403 then .forbidden
  else if status = 404 then .notFound
  else if status = 429 then .rateLimit
  else if status = 400 ∨ status = 422 then .validation
  else if status = 500 ∨ status = 502 ∨ status = 503 ∨ status = 504 then .server
  else .unknown

/-- The `switch resp.StatusCode` fallback messages of `handleErrorResponse`,
used when the body carried no `detail`. -/
def defaultMessage (status : Nat) : String :=
  if status = 401 then "API Key inválida ou expirada"
  else if status = 403 then "Plano não autorizado para este recurso"
  else if status = 404 then "Recurso não encontrado"
  else if status = 429 then "Limite de requisições excedido"
  else "Erro na API"

/-- `Client.handleErrorResponse`.  Returns `none` exactly for the execution
that panics in Go: the 429 branch reads `c.RateLimit.Limit` and
`c.RateLimit.Remaining` without a nil check, so a nil snapshot is a nil
pointer dereference. -/
def handleErrorResponse (st : ClientState) (statusCode : Nat)
    (headers : HeaderMap) (errResp : ErrResp) : Option ClassifiedError :=
  let message := if errResp.detail ≠ "" then errResp.detail else defaultMessage statusCode
  let baseErr : APIError :=
    { statusCode := statusCode, message := message, requestID := st.lastRequestID }
  if statusCode = 401 then some (.authentication baseErr)
  else if statusCode = 403 then some (.forbidden baseErr errResp.requiredPlan)
  else if statusCode = 404 then some (.notFound baseErr)
  else if statusCode = 429 then
    let ra := headerGet headers "Retry-After"
    let retryAfter : Int := if ra ≠ "" then atoiIgnoreError ra else 0
    match st.rateLimit with
    | none => none
    | some rl => some (.rateLimit baseErr retryAfter rl.limit rl.remaining)
  else if statusCode = 400 ∨ statusCode = 422 then some (.validation baseErr errResp.errors)
  else if statusCode = 500 ∨ statusCode = 502 ∨ statusCode = 503 ∨ statusCode = 504 then
    some (.server baseErr)
  else some (.plain baseErr)

/-- `Client.isRetryable`: membership of the status in the configured set. -/
def isRetryable (cfg : RetryConfig) (statusCode : Nat) : Bool :=
  cfg.retryableStatus.contains statusCode

/-- `Client.calculateDelay`: float64 arithmetic modelled over `ℚ`; the final
`time.Duration(delay)` integer truncation is not modelled. -/
def calculateDelay (cfg : RetryConfig) (attempt : Nat) : ℚ :=
  let delay := cfg.initialDelay * cfg.backoffFactor ^ attempt
  if cfg.maxDelay < delay then cfg.maxDelay else delay

/-- The single `bytes.Reader` built from the marshalled body before the retry
loop of `doRequest`: `remaining` is what a send started now would carry, and a
completed send leaves the reader at EOF. -/
structure BodyReader where
  data : Bytes
  pos : Nat
deriving DecidableEq

def BodyReader.remaining (r : BodyReader) : Bytes := r.data.drop r.pos

def BodyReader.drain (r : BodyReader) : BodyReader := { r with pos := r.data.length }

/-- Per-attempt outcome of the network interaction inside the loop body:
`httpClient.Do` fails; or a response arrives but `io.ReadAll` fails; or a
response with the given status/headers arrives and its body reads as the given
(possibly zero-valued) parsed error struct, with `decodeOk` telling whether a
2xx body unmarshals into the result target. -/
inductive Outcome where
  | transportError
  | readError
  | response (statusCode : Nat) (headers : HeaderMap) (errResp : ErrResp) (decodeOk : Bool)

/-- Environment oracle for one logical call: the outcome of attempt `a`, and
whether `ctx.Done()` fires during the backoff select before attempt `a`. -/
structure Env where
  outcome : Nat → Outcome
  cancelDuringWait : Nat → Bool

/-- The values `lastErr` ranges over inside the loop. -/
inductive DoErr where
  | transport
  | readBody
  | api (e : ClassifiedError)
deriving DecidableEq

/-- What `doRequest` returns to its caller. -/
inductive DoResult where
  | success
  | decodeError
  | cancelled
  | transportErr
  | readErr
  | apiErr (e : ClassifiedError)
  | panicked
  | noErr
deriving DecidableEq

/-- The `return lastErr` at loop exit, mapped onto `DoResult`. -/
def lastErrResult : Option DoErr → DoResult
  | none => .noErr
  | some .transport => .transportErr
  | some .readBody => .readErr
  | some (.api e) => .apiErr e

/-- Observable trace of one `doRequest` call: outcome, the body content of
each HTTP request in issue order, the backoff delays actually waited, and the
client state at return. -/
structure ExecResult where
  result : DoResult
  requests : List Bytes
  waits : List ℚ
  finalState : ClientState
deriving DecidableEq

/-- The retry loop of `Client.doRequest`, one recursive step per iteration.
`remaining` counts the iterations the guard `attempt <= MaxRetries` still
allows (`maxRetries + 1 - attempt`); `remaining = 0` is the normal loop exit
returning `lastErr`.  A completed roundtrip (response received) drains the
shared body reader; whether a transport-level failure consumed the reader is
not modelled and the reader is left as-is there. -/
def doLoop (cfg : RetryConfig) (env : Env) :
    Nat → Nat → ClientState → BodyReader → Option DoErr → ExecResult
  | _, 0, st, _, lastErr =>
      { result := lastErrResult lastErr, requests := [], waits := [], finalState := st }
  | attempt, remaining + 1, st, reader, _lastErr =>
      if attempt > 0 ∧ env.cancelDuringWait attempt then
        { result := .cancelled, requests := [], waits := [], finalState := st }
      else
        let waitsHere : List ℚ :=
          if attempt > 0 then [calculateDelay cfg (attempt - 1)] else []
        let sent := reader.remaining
        match env.outcome attempt with
        | .transportError =>
            if attempt < cfg.maxRetries then
              let r := doLoop cfg env (attempt + 1) remaining st reader (some .transport)
              { r with requests := sent :: r.requests, waits := waitsHere ++ r.waits }
            else
              { result := .transportErr, requests := [sent], waits := waitsHere,
                finalState := st }
        | .readError =>
            let r := doLoop cfg env (attempt + 1) remaining st reader.drain (some .readBody)
            { r with requests := sent :: r.requests, waits := waitsHere ++ r.waits }
        | .response status headers errResp decodeOk =>
            let st' := extractRateLimit st headers
            if 200 ≤ status ∧ status < 300 then
              { result := if decodeOk then .success else .decodeError,
                requests := [sent], waits := waitsHere, finalState := st' }
            else
              match handleErrorResponse st' status headers errResp with
              | none =>
                  { result := .panicked, requests := [sent], waits := waitsHere,
                    finalState := st' }
              | some e =>
                  if isRetryable cfg status ∧ attempt < cfg.maxRetries then
                    let r := doLoop cfg env (attempt + 1) remaining st' reader.drain
                        (some (.api e))
                    { r with requests := sent :: r.requests, waits := waitsHere ++ r.waits }
                  else
                    { result := .apiErr e, requests := [sent], waits := waitsHere,
                      finalState := st' }

/-- `Client.doRequest`: marshal the body once into a single reader shared by
every attempt, then run the retry loop from attempt 0 with `lastErr = nil`. -/
def doRequest (cfg : RetryConfig) (env : Env) (body : Option Bytes)
    (st : ClientState) : ExecResult :=
  doLoop cfg env 0 (cfg.maxRetries + 1) st { data := body.getD [], pos := 0 } none

/-- Fixture: a server answering 500 on every attempt, no cancellation. -/
def env500 : Env :=
  { outcome := fun _ => .response 500 [] ErrResp.zero true
    cancelDuringWait := fun _ => false }

/-- Fixture: two retries allowed, retryable set `[500]`. -/
def cfg500 : RetryConfig :=
  { maxRetries := 2, initialDelay := 1, maxDelay := 10, backoffFactor := 2,
    retryableStatus := [500] }

/-- Fixture: one retry allowed, retryable set `[500]`. -/
def cfg500one : RetryConfig :=
  { maxRetries := 1, initialDelay := 1, maxDelay := 10, backoffFactor := 2,
    retryableStatus := [500] }

/-- Fixture: a client whose snapshot was populated by some earlier response. -/
def stPop : ClientState :=
  { rateLimit := some { limit := 100, remaining := 50, reset := 1700000000 }
    lastRequestID := "" }

/-- Fixture: a client fresh out of `NewClient`: nil snapshot, empty id. -/
def freshClient : ClientState := { rateLimit := none, lastRequestID := "" }

/-- Fixture: a legal but unusual policy listing 401 as retryable. -/
def cfg401 : RetryConfig :=
  { maxRetries := 1, initialDelay := 1, maxDelay := 10, backoffFactor := 2,
    retryableStatus := [401] }

/-- Fixture: a server answering 401 on every attempt. -/
def env401 : Env :=
  { outcome := fun _ => .response 401 [] ErrResp.zero true
    cancelDuringWait := fun _ => false }

/-- Fixture: always-500 server whose caller cancels during the wait preceding
the first retry. -/
def envCancelAt1 : Env :=
  { outcome := fun _ => .response 500 [] ErrResp.zero true
    cancelDuringWait := fun i => i == 1 }

/-- Fixture: a server answering 429 with no rate-limit headers. -/
def env429 : Env :=
  { outcome := fun _ => .response 429 [] ErrResp.zero true
    cancelDuringWait := fun _ => false }

/-- Fixture: the backoff policy of the spec's worked example, in seconds:
initial delay 1, factor 2.0, max delay 10. -/
def cfgSeconds : RetryConfig :=
  { maxRetries := 0, initialDelay := 1, maxDelay := 10, backoffFactor := 2,
    retryableStatus := [] }

/-- Fixture: the three rate-limit headers present, limit not an integer. -/
def hdrBadLimit : HeaderMap :=
  [("X-RateLimit-Limit", "abc"), ("X-RateLimit-Remaining", "7"),
   ("X-RateLimit-Reset", "8")]

/-- Fixture: rate-limit headers with `X-RateLimit-Reset` missing. -/
def hdrNoReset : HeaderMap :=
  [("X-RateLimit-Limit", "100"), ("X-RateLimit-Remaining", "7")]

/-- Fixture: a `Retry-After: 60` header. -/
def hdrRetryAfter : HeaderMap := [("Retry-After", "60")]

/-- Fixture: a client with a distinguishable populated snapshot. -/
def stSnap : ClientState :=
  { rateLimit := some { limit := 5, remaining := 6, reset := 7 }
    lastRequestID := "r1" }

/-- A populated rate-limit snapshot stays populated across `extractRateLimit`:
the snapshot is either replaced by a fresh one or left alone, never cleared. -/
theorem extractRateLimit_isSome (st : ClientState) (headers : HeaderMap)
    (h : st.rateLimit.isSome = true) :
    (extractRateLimit st headers).rateLimit.isSome = true := by
  simp only [extractRateLimit]
  split_ifs <;> simp [h]

/-- With a populated snapshot the classifier always returns (no branch can hit
the nil dereference of the 429 case). -/
theorem handleErrorResponse_isSome (st : ClientState) (status : Nat)
    (headers : HeaderMap) (errResp : ErrResp)
    (h : st.rateLimit.isSome = true) :
    ∃ e, handleErrorResponse st status headers errResp = some e := by
  obtain ⟨rl, hrl⟩ := Option.isSome_iff_exists.mp h
  simp only [handleErrorResponse, hrl]
  split_ifs <;> exact ⟨_, rfl⟩

/-- For any status other than 429 the classifier returns regardless of the
snapshot state. -/
theorem handleErrorResponse_isSome_of_ne (st : ClientState) (status : Nat)
    (headers : HeaderMap) (errResp : ErrResp) (h : status ≠ 429) :
    ∃ e, handleErrorResponse st status headers errResp = some e := by
  simp only [handleErrorResponse]
  split_ifs <;> exact ⟨_, rfl⟩

/-- Master lemma for the retry loop under an environment that answers every
attempt with a retryable non-2xx response and never cancels: every allowed
iteration issues one request, the backoff waits are indexed by the retry index
(attempt number minus one), the snapshot stays populated, and the loop ends by
returning the classified error of the final attempt. -/
theorem doLoop_allRetryable (cfg : RetryConfig) (env : Env)
    (hout : ∀ i, i ≤ cfg.maxRetries → ∃ s hd er d, env.outcome i = .response s hd er d ∧
        isRetryable cfg s = true ∧ ¬(200 ≤ s ∧ s < 300))
    (hcanc : ∀ i, env.cancelDuringWait i = false) :
    ∀ remaining attempt st reader lastErr, 1 ≤ remaining →
      attempt + remaining = cfg.maxRetries + 1 →
      st.rateLimit.isSome = true →
      ((doLoop cfg env attempt remaining st reader lastErr).requests.length = remaining ∧
       (doLoop cfg env attempt remaining st reader lastErr).waits =
         (List.range' (attempt - 1) (remaining - (1 - attempt))).map (calculateDelay cfg) ∧
       (doLoop cfg env attempt remaining st reader lastErr).finalState.rateLimit.isSome = true ∧
       ∃ s hd er d e, env.outcome cfg.maxRetries = .response s hd er d ∧
         handleErrorResponse (doLoop cfg env attempt remaining st reader
            lastErr).finalState s hd er = some e ∧
         (doLoop cfg env attempt remaining st reader lastErr).result = .apiErr e) := by
  intro remaining
  induction remaining with
  | zero =>
    intro attempt st reader lastErr h1
    exact (Nat.not_succ_le_zero 0 h1).elim
  | succ n ih =>
    intro attempt st reader lastErr _ hsum hsnap
    obtain ⟨s, hd, er, d, hout0, hretry, h2xx⟩ := hout attempt (by omega)
    have hc := hcanc attempt
    have hsnap' : (extractRateLimit st hd).rateLimit.isSome = true :=
      extractRateLimit_isSome st hd hsnap
    obtain ⟨e0, he0⟩ := handleErrorResponse_isSome (extractRateLimit st hd) s hd er hsnap'
    by_cases hn : n = 0
    · subst hn
      have hatt : attempt = cfg.maxRetries := by omega
      have hcond : ¬(isRetryable cfg s = true ∧ attempt < cfg.maxRetries) := by
        rintro ⟨-, hx⟩; omega
      have hstep : doLoop cfg env attempt (0 + 1) st reader lastErr =
          { result := .apiErr e0, requests := [reader.remaining],
            waits := if attempt > 0 then [calculateDelay cfg (attempt - 1)] else [],
            finalState := extractRateLimit st hd } := by
        simp only [doLoop, hc, hout0, he0, Bool.false_eq_true, and_false, if_false,
          if_neg h2xx, if_neg hcond]
      rw [hstep]
      refine ⟨rfl, ?_, hsnap', s, hd, er, d, e0, hatt ▸ hout0, he0, rfl⟩
      rcases Nat.eq_zero_or_pos attempt with h0 | h0
      · simp [h0]
      · have h1 : 0 + 1 - (1 - attempt) = 1 := by omega
        simp [if_pos h0, h1, List.range'_succ]
    · have hlt : attempt < cfg.maxRetries := by omega
      have hcond : isRetryable cfg s = true ∧ attempt < cfg.maxRetries := ⟨hretry, hlt⟩
      have hstep : doLoop cfg env attempt (n + 1) st reader lastErr =
          (let r := doLoop cfg env (attempt + 1) n (extractRateLimit st hd)
              reader.drain (some (.api e0))
           { r with requests := reader.remaining :: r.requests,
                    waits := (if attempt > 0 then [calculateDelay cfg (attempt - 1)]
                      else []) ++ r.waits }) := by
        simp only [doLoop, hc, hout0, he0, Bool.false_eq_true, and_false, if_false,
          if_neg h2xx, if_pos hcond]
      rw [hstep]
      obtain ⟨ihlen, ihwaits, ihsnap, s', hd', er', d', e', ihout, ihhandle, ihres⟩ :=
        ih (attempt + 1) (extractRateLimit st hd) reader.drain
          (some (.api e0)) (by omega) (by omega) hsnap'
      have e1 : attempt + 1 - 1 = attempt := by omega
      have e2 : n - (1 - (attempt + 1)) = n := by omega
      rw [e1, e2] at ihwaits
      refine ⟨by simpa using ihlen, ?_, by simpa using ihsnap,
        s', hd', er', d', e', ihout, by simpa using ihhandle, by simpa using ihres⟩
      show (if attempt > 0 then [calculateDelay cfg (attempt - 1)] else []) ++
          (doLoop cfg env (attempt + 1) n (extractRateLimit st hd)
            reader.drain (some (.api e0))).waits = _
      rw [ihwaits]
      rcases Nat.eq_zero_or_pos attempt with h0 | h0
      · simp [h0]
      · have h1 : n + 1 - (1 - attempt) = n + 1 := by omega
        have h2 : attempt - 1 + 1 = attempt := by omega
        simp [if_pos h0, h1, List.range'_succ, h2]

/-- C1: for every retry policy with `MaxRetries = N`, a logical call against a
server answering a retryable non-2xx status on every attempt — with no
cancellation, and a client whose rate-limit snapshot is populated so the
independent 429 nil-snapshot defect (claim C9) cannot fire — performs exactly
`N + 1` HTTP requests: total attempts are `1 + MaxRetries`, the loop counting
attempt 0 as the first try. -/
theorem c1_always_retryable_yields_maxRetries_plus_one_requests
    (cfg : RetryConfig) (env : Env) (body : Option Bytes) (st : ClientState)
    (hout : ∀ i, i ≤ cfg.maxRetries → ∃ s hd er d,
        env.outcome i = .response s hd er d ∧ isRetryable cfg s = true ∧
        ¬(200 ≤ s ∧ s < 300))
    (hcanc : ∀ i, env.cancelDuringWait i = false)
    (hsnap : st.rateLimit.isSome = true) :
    (doRequest cfg env body st).requests.length = cfg.maxRetries + 1 :=
  (doLoop_allRetryable cfg env hout hcanc (cfg.maxRetries + 1) 0 st
    { data := body.getD [], pos := 0 } none (by omega) (by omega) hsnap).1

/-- C1 witness: `MaxRetries = 2` against an always-500 server gives exactly 3
requests. -/
theorem c1_witness :
    (doRequest cfg500 env500 none stPop).requests.length = cfg500.maxRetries + 1 :=
  c1_always_retryable_yields_maxRetries_plus_one_requests cfg500 env500 none stPop
    (fun i _ => ⟨500, [], ErrResp.zero, true, rfl, rfl, by omega⟩)
    (fun _ => rfl) rfl

/-- C2 counterexample: retryability is membership in the *configurable*
`RetryableStatus` set, so a client configured with `RetryableStatus = [401]`
and one retry allowed sends 2 requests to a server answering 401 on every
attempt — refuting "a 401 results in exactly 1 request for every client
configuration". -/
theorem c2_counterexample :
    (doRequest cfg401 env401 none freshClient).requests.length = 2 ∧
    (doRequest cfg401 env401 none freshClient).requests.length ≠ 1 := by
  refine ⟨rfl, ?_⟩
  decide

/-- C2 (amended): a response whose status is one of 401/403/404/400/422 is
never retried under every configuration whose `RetryableStatus` set does not
contain that status — as is the case for all five under the default
configuration — and `doRequest` returns the classified error of that first
response after exactly one request. -/
theorem c2_amended_unretryable_status_gets_single_request
    (cfg : RetryConfig) (env : Env) (body : Option Bytes) (st : ClientState)
    (s : Nat) (hd : HeaderMap) (er : ErrResp) (d : Bool)
    (hs : s ∈ ([401, 403, 404, 400, 422] : List Nat))
    (hout : env.outcome 0 = .response s hd er d)
    (hnr : isRetryable cfg s = false) :
    (∀ s', s' ∈ ([401, 403, 404, 400, 422] : List Nat) →
        isRetryable DefaultRetryConfig s' = false) ∧
    (doRequest cfg env body st).requests.length = 1 ∧
    ∃ e, (doRequest cfg env body st).result = .apiErr e ∧
      handleErrorResponse (extractRateLimit st hd) s hd er = some e := by
  simp only [List.mem_cons, List.not_mem_nil, or_false] at hs
  have h2xx : ¬(200 ≤ s ∧ s < 300) := by rcases hs with h | h | h | h | h <;> omega
  have hne : s ≠ 429 := by rcases hs with h | h | h | h | h <;> omega
  obtain ⟨e, he⟩ := handleErrorResponse_isSome_of_ne (extractRateLimit st hd) s hd er hne
  have hcond : ¬(isRetryable cfg s = true ∧ 0 < cfg.maxRetries) := by
    rintro ⟨hx, -⟩; rw [hnr] at hx; exact Bool.false_ne_true hx
  have hstep : doRequest cfg env body st =
      { result := .apiErr e,
        requests := [BodyReader.remaining { data := body.getD [], pos := 0 }],
        waits := [], finalState := extractRateLimit st hd } := by
    simp only [doRequest, doLoop, hout, he, gt_iff_lt, lt_self_iff_false, false_and,
      if_false, if_neg h2xx, if_neg hcond]
  rw [hstep]
  exact ⟨by decide, rfl, e, rfl, he⟩

/-- C2 amended witness: the default configuration and a 401 response give one
request and an `AuthenticationError`-classified result. -/
theorem c2_amended_witness :
    (∀ s', s' ∈ ([401, 403, 404, 400, 422] : List Nat) →
        isRetryable DefaultRetryConfig s' = false) ∧
    (doRequest DefaultRetryConfig env401 none freshClient).requests.length = 1 ∧
    ∃ e, (doRequest DefaultRetryConfig env401 none freshClient).result = .apiErr e ∧
      handleErrorResponse (extractRateLimit freshClient []) 401 [] ErrResp.zero = some e :=
  c2_amended_unretryable_status_gets_single_request DefaultRetryConfig env401 none
    freshClient 401 [] ErrResp.zero true (by decide) rfl rfl

/-- C3 is violated by the source: the marshalled POST body is wrapped once in
a single `bytes.Reader` created before the retry loop, the first send drains
that reader, and the retry of the same logical call sends an empty body
instead of the original bytes — the bodies of the two attempts differ. -/
theorem c3_retry_resends_drained_empty_body :
    (doRequest cfg500one env500 (some [1, 2, 3]) freshClient).requests =
      [[1, 2, 3], []] ∧ ([] : Bytes) ≠ [1, 2, 3] := by
  refine ⟨rfl, ?_⟩
  decide

/-- Run-prefix lemma for cancellation: if the environment answers retryable
non-2xx responses with no cancellation strictly before attempt `a`
(`1 ≤ a ≤ MaxRetries`) and the context fires during the backoff select before
attempt `a`, the loop returns the Cancelled error (`ctx.Err()`) having issued
exactly the `a - attempt` requests that preceded the cancellation. -/
theorem doLoop_cancelledAt (cfg : RetryConfig) (env : Env) (a : Nat)
    (hout : ∀ i, i < a → ∃ s hd er d, env.outcome i = .response s hd er d ∧
        isRetryable cfg s = true ∧ ¬(200 ≤ s ∧ s < 300))
    (hcanc : ∀ i, i < a → env.cancelDuringWait i = false)
    (hca : env.cancelDuringWait a = true)
    (ha1 : 1 ≤ a) (ha2 : a ≤ cfg.maxRetries) :
    ∀ remaining attempt st reader lastErr,
      attempt + remaining = cfg.maxRetries + 1 → attempt ≤ a →
      st.rateLimit.isSome = true →
      ((doLoop cfg env attempt remaining st reader lastErr).result = .cancelled ∧
       (doLoop cfg env attempt remaining st reader lastErr).requests.length =
         a - attempt) := by
  intro remaining
  induction remaining with
  | zero =>
    intro attempt st reader lastErr h1 h2 _
    exfalso; omega
  | succ n ih =>
    intro attempt st reader lastErr hsum hle hsnap
    by_cases hAtt : attempt = a
    · subst hAtt
      have hstep : doLoop cfg env attempt (n + 1) st reader lastErr =
          { result := .cancelled, requests := [], waits := [], finalState := st } := by
        simp only [doLoop]
        rw [if_pos ⟨by omega, hca⟩]
      rw [hstep]
      exact ⟨rfl, by simp⟩
    · have hlt : attempt < a := by omega
      obtain ⟨s, hd, er, d, hout0, hretry, h2xx⟩ := hout attempt hlt
      have hc := hcanc attempt hlt
      have hsnap' := extractRateLimit_isSome st hd hsnap
      obtain ⟨e0, he0⟩ :=
        handleErrorResponse_isSome (extractRateLimit st hd) s hd er hsnap'
      have hcond : isRetryable cfg s = true ∧ attempt < cfg.maxRetries :=
        ⟨hretry, by omega⟩
      have hstep : doLoop cfg env attempt (n + 1) st reader lastErr =
          (let r := doLoop cfg env (attempt + 1) n (extractRateLimit st hd)
              reader.drain (some (.api e0))
           { r with requests := reader.remaining :: r.requests,
                    waits := (if attempt > 0 then [calculateDelay cfg (attempt - 1)]
                      else []) ++ r.waits }) := by
        simp only [doLoop, hc, hout0, he0, Bool.false_eq_true, and_false, if_false,
          if_neg h2xx, if_pos hcond]
      rw [hstep]
      obtain ⟨ihres, ihlen⟩ := ih (attempt + 1) (extractRateLimit st hd) reader.drain
        (some (.api e0)) (by omega) (by omega) hsnap'
      refine ⟨by simpa using ihres, ?_⟩
      show (reader.remaining :: (doLoop cfg env (attempt + 1) n (extractRateLimit st hd)
          reader.drain (some (.api e0))).requests).length = a - attempt
      rw [List.length_cons, ihlen]
      omega

/-- C4: if the caller's cancellation signal fires during the backoff wait
before attempt `a` of a call whose earlier attempts all drew retryable
responses, the call aborts out of the interruptible select with the Cancelled
error and the total number of HTTP requests is exactly the `a` sent before
cancellation — zero additional requests after it. -/
theorem c4_cancel_during_backoff_aborts_without_further_requests
    (cfg : RetryConfig) (env : Env) (body : Option Bytes) (st : ClientState) (a : Nat)
    (hout : ∀ i, i < a → ∃ s hd er d, env.outcome i = .response s hd er d ∧
        isRetryable cfg s = true ∧ ¬(200 ≤ s ∧ s < 300))
    (hcanc : ∀ i, i < a → env.cancelDuringWait i = false)
    (hca : env.cancelDuringWait a = true)
    (ha1 : 1 ≤ a) (ha2 : a ≤ cfg.maxRetries)
    (hsnap : st.rateLimit.isSome = true) :
    (doRequest cfg env body st).result = .cancelled ∧
    (doRequest cfg env body st).requests.length = a := by
  obtain ⟨hres, hlen⟩ := doLoop_cancelledAt cfg env a hout hcanc hca ha1 ha2
    (cfg.maxRetries + 1) 0 st { data := body.getD [], pos := 0 } none
    (by omega) (by omega) hsnap
  exact ⟨hres, by simpa using hlen⟩

/-- C4 witness: cancelling during the wait before the first retry of an
always-500 run aborts with Cancelled after exactly 1 request. -/
theorem c4_witness :
    (doRequest cfg500 envCancelAt1 none stPop).result = .cancelled ∧
    (doRequest cfg500 envCancelAt1 none stPop).requests.length = 1 :=
  c4_cancel_during_backoff_aborts_without_further_requests cfg500 envCancelAt1
    none stPop 1
    (fun i _ => ⟨500, [], ErrResp.zero, true, rfl, rfl, by omega⟩)
    (fun i hi => by
      have h0 : i = 0 := by omega
      subst h0; rfl)
    rfl (by omega) (by decide) rfl

/-- C5: `calculateDelay` computes `min(initial_delay · backoff_factor^k,
max_delay)` for retry index `k`; along a full retry run `doRequest`'s waits
are `calculateDelay 0, …, calculateDelay (MaxRetries − 1)` — the wait before
the k-th retry is indexed by the retry index, not the absolute attempt
number; and the spec's worked example (initial 1s, factor 2.0, max 10s)
yields successive delays 1, 2, 4, 8, 10, 10. -/
theorem c5_backoff_delay_formula_and_indexing
    (cfg : RetryConfig) (k : Nat) (env : Env) (body : Option Bytes) (st : ClientState)
    (hout : ∀ i, i ≤ cfg.maxRetries → ∃ s hd er d,
        env.outcome i = .response s hd er d ∧ isRetryable cfg s = true ∧
        ¬(200 ≤ s ∧ s < 300))
    (hcanc : ∀ i, env.cancelDuringWait i = false)
    (hsnap : st.rateLimit.isSome = true) :
    calculateDelay cfg k = min (cfg.initialDelay * cfg.backoffFactor ^ k) cfg.maxDelay ∧
    (doRequest cfg env body st).waits =
      (List.range cfg.maxRetries).map (calculateDelay cfg) ∧
    (List.range 6).map (calculateDelay cfgSeconds) = [1, 2, 4, 8, 10, 10] := by
  refine ⟨?_, ?_, ?_⟩
  · simp only [calculateDelay, min_def]
    split_ifs <;> first | rfl | linarith
  · have h := (doLoop_allRetryable cfg env hout hcanc (cfg.maxRetries + 1) 0 st
      { data := body.getD [], pos := 0 } none (by omega) (by omega) hsnap).2.1
    simpa [List.range_eq_range'] using h
  · simp only [List.range_succ, List.range_zero, List.map_append, List.map_cons,
      List.map_nil, calculateDelay, cfgSeconds]
    norm_num

/-- C5 witness: the formula, the indexing along a concrete run (two retries ⇒
waits `calculateDelay 0, calculateDelay 1`), and the spec's example sequence,
at concrete inputs. -/
theorem c5_witness :
    calculateDelay cfg500 4 =
      min (cfg500.initialDelay * cfg500.backoffFactor ^ 4) cfg500.maxDelay ∧
    (doRequest cfg500 env500 none stPop).waits =
      (List.range cfg500.maxRetries).map (calculateDelay cfg500) ∧
    (List.range 6).map (calculateDelay cfgSeconds) = [1, 2, 4, 8, 10, 10] :=
  c5_backoff_delay_formula_and_indexing cfg500 4 env500 none stPop
    (fun i _ => ⟨500, [], ErrResp.zero, true, rfl, rfl, by omega⟩)
    (fun _ => rfl) rfl

/-- C6 counterexample: a response carrying all three rate-limit headers where
the limit value does not parse as an integer nevertheless replaces the
previous snapshot (`strconv.Atoi`'s error is discarded and 0 is stored) —
refuting "any header failing to parse leaves the previous snapshot
untouched". -/
theorem c6_counterexample :
    parseGoInt "abc" = none ∧
    (extractRateLimit stSnap hdrBadLimit).rateLimit =
      some { limit := 0, remaining := 7, reset := 8 } ∧
    (extractRateLimit stSnap hdrBadLimit).rateLimit ≠ stSnap.rateLimit := by
  refine ⟨rfl, rfl, ?_⟩
  decide

/-- C6 (amended): the snapshot is replaced wholesale — every numeric field
taken from the same response, a present-but-unparseable value stored as 0 —
if and only if the three numeric headers are all present (non-empty), and it
is left completely untouched exactly when at least one of them is absent. -/
theorem c6_amended_snapshot_replaced_iff_headers_present
    (st : ClientState) (headers : HeaderMap) :
    ((headerGet headers "X-RateLimit-Limit" ≠ "" ∧
      headerGet headers "X-RateLimit-Remaining" ≠ "" ∧
      headerGet headers "X-RateLimit-Reset" ≠ "") →
      (extractRateLimit st headers).rateLimit = some
        { limit := atoiIgnoreError (headerGet headers "X-RateLimit-Limit")
          remaining := atoiIgnoreError (headerGet headers "X-RateLimit-Remaining")
          reset := atoiIgnoreError (headerGet headers "X-RateLimit-Reset") }) ∧
    (¬(headerGet headers "X-RateLimit-Limit" ≠ "" ∧
       headerGet headers "X-RateLimit-Remaining" ≠ "" ∧
       headerGet headers "X-RateLimit-Reset" ≠ "") →
      (extractRateLimit st headers).rateLimit = st.rateLimit) := by
  constructor
  · intro h
    simp only [extractRateLimit]
    rw [if_pos h]
  · intro h
    simp only [extractRateLimit]
    rw [if_neg h]

/-- C6 amended witness: a response missing `X-RateLimit-Reset` leaves the
previous snapshot unchanged. -/
theorem c6_amended_witness :
    (extractRateLimit stSnap hdrNoReset).rateLimit = stSnap.rateLimit :=
  (c6_amended_snapshot_replaced_iff_headers_present stSnap hdrNoReset).2 (by decide)

/-- C7: on every non-2xx response the classifier returns the error whose kind
the status table dictates (for 429 given a populated snapshot — the
nil-snapshot 429 panic is claim C9), carrying the response's status; the 429
error carries retry-after read from the `Retry-After` header with default 0;
and when the error body failed to parse as structured JSON (zero-valued
`detail`) the message falls back to the status-derived default rather than
failing the call. -/
theorem c7_error_classifier_matches_table
    (st : ClientState) (status : Nat) (headers : HeaderMap) (errResp : ErrResp)
    (h2xx : ¬(200 ≤ status ∧ status < 300))
    (hsnap : status = 429 → st.rateLimit.isSome = true) :
    ∃ e, handleErrorResponse st status headers errResp = some e ∧
      e.kind = specTableKind status ∧
      e.base.statusCode = status ∧
      (errResp.detail = "" → e.base.message = defaultMessage status) ∧
      (status = 429 → ∃ b l r, e = .rateLimit b
        (if headerGet headers "Retry-After" ≠ ""
         then atoiIgnoreError (headerGet headers "Retry-After") else 0) l r) := by
  by_cases h401 : status = 401
  · subst h401
    refine ⟨.authentication ⟨401,
        (if errResp.detail ≠ "" then errResp.detail else defaultMessage 401),
        st.lastRequestID⟩,
      rfl, rfl, rfl, fun hdet => by simp [hdet, ClassifiedError.base], fun h => absurd h (by omega)⟩
  by_cases h403 : status = 403
  · subst h403
    refine ⟨.forbidden ⟨403,
        (if errResp.detail ≠ "" then errResp.detail else defaultMessage 403),
        st.lastRequestID⟩ errResp.requiredPlan,
      ?_, rfl, rfl, fun hdet => by simp [hdet, ClassifiedError.base], fun h => absurd h (by omega)⟩
    simp [handleErrorResponse]
  by_cases h404 : status = 404
  · subst h404
    refine ⟨.notFound ⟨404,
        (if errResp.detail ≠ "" then errResp.detail else defaultMessage 404),
        st.lastRequestID⟩,
      ?_, rfl, rfl, fun hdet => by simp [hdet, ClassifiedError.base], fun h => absurd h (by omega)⟩
    simp [handleErrorResponse]
  by_cases h429 : status = 429
  · subst h429
    obtain ⟨rl, hrl⟩ := Option.isSome_iff_exists.mp (hsnap rfl)
    refine ⟨.rateLimit ⟨429,
        (if errResp.detail ≠ "" then errResp.detail else defaultMessage 429),
        st.lastRequestID⟩
        (if headerGet headers "Retry-After" ≠ ""
         then atoiIgnoreError (headerGet headers "Retry-After") else 0)
        rl.limit rl.remaining,
      ?_, rfl, rfl, fun hdet => by simp [hdet, ClassifiedError.base], fun _ => ⟨_, _, _, rfl⟩⟩
    simp [handleErrorResponse, hrl]
  by_cases h400 : status = 400 ∨ status = 422
  · rcases h400 with h | h <;> subst h
    · refine ⟨.validation ⟨400,
          (if errResp.detail ≠ "" then errResp.detail else defaultMessage 400),
          st.lastRequestID⟩ errResp.errors,
        ?_, rfl, rfl, fun hdet => by simp [hdet, ClassifiedError.base], fun h => absurd h (by omega)⟩
      simp [handleErrorResponse]
    · refine ⟨.validation ⟨422,
          (if errResp.detail ≠ "" then errResp.detail else defaultMessage 422),
          st.lastRequestID⟩ errResp.errors,
        ?_, rfl, rfl, fun hdet => by simp [hdet, ClassifiedError.base], fun h => absurd h (by omega)⟩
      simp [handleErrorResponse]
  by_cases h5xx : status = 500 ∨ status = 502 ∨ status = 503 ∨ status = 504
  · rcases h5xx with h | h | h | h <;> subst h
    · refine ⟨.server ⟨500,
          (if errResp.detail ≠ "" then errResp.detail else defaultMessage 500),
          st.lastRequestID⟩,
        ?_, rfl, rfl, fun hdet => by simp [hdet, ClassifiedError.base],
        fun h => absurd h (by omega)⟩
      simp [handleErrorResponse]
    · refine ⟨.server ⟨502,
          (if errResp.detail ≠ "" then errResp.detail else defaultMessage 502),
          st.lastRequestID⟩,
        ?_, rfl, rfl, fun hdet => by simp [hdet, ClassifiedError.base],
        fun h => absurd h (by omega)⟩
      simp [handleErrorResponse]
    · refine ⟨.server ⟨503,
          (if errResp.detail ≠ "" then errResp.detail else defaultMessage 503),
          st.lastRequestID⟩,
        ?_, rfl, rfl, fun hdet => by simp [hdet, ClassifiedError.base],
        fun h => absurd h (by omega)⟩
      simp [handleErrorResponse]
    · refine ⟨.server ⟨504,
          (if errResp.detail ≠ "" then errResp.detail else defaultMessage 504),
          st.lastRequestID⟩,
        ?_, rfl, rfl, fun hdet => by simp [hdet, ClassifiedError.base],
        fun h => absurd h (by omega)⟩
      simp [handleErrorResponse]
  · refine ⟨.plain ⟨status,
        (if errResp.detail ≠ "" then errResp.detail else defaultMessage status),
        st.lastRequestID⟩,
      ?_, ?_, rfl, fun hdet => by simp [hdet, ClassifiedError.base], fun h => absurd h h429⟩
    · simp [handleErrorResponse, h401, h403, h404, h429, h400, h5xx]
    · simp [ClassifiedError.kind, specTableKind, h401, h403, h404, h429, h400, h5xx]

/-- C7 witness: a 429 with `Retry-After: 60` and an unparseable body on a
client with a populated snapshot classifies as a RateLimit error with
retry-after 60 and the default 429 message. -/
theorem c7_witness :
    ∃ e, handleErrorResponse stPop 429 hdrRetryAfter ErrResp.zero = some e ∧
      e.kind = specTableKind 429 ∧
      e.base.statusCode = 429 ∧
      (ErrResp.zero.detail = "" → e.base.message = defaultMessage 429) ∧
      (429 = 429 → ∃ b l r, e = .rateLimit b
        (if headerGet hdrRetryAfter "Retry-After" ≠ ""
         then atoiIgnoreError (headerGet hdrRetryAfter "Retry-After") else 0) l r) :=
  c7_error_classifier_matches_table stPop 429 hdrRetryAfter ErrResp.zero
    (by omega) (fun _ => rfl)

/-- C8: when every attempt of a call draws a retryable non-2xx response and
retries run out, `doRequest` returns exactly the classified error of the last
response — the caller can still pattern-match its original constructor — and
never a synthesized retries-exhausted wrapper (no such value exists in the
return path). -/
theorem c8_exhausted_retries_surface_last_classified_error
    (cfg : RetryConfig) (env : Env) (body : Option Bytes) (st : ClientState)
    (hout : ∀ i, i ≤ cfg.maxRetries → ∃ s hd er d,
        env.outcome i = .response s hd er d ∧ isRetryable cfg s = true ∧
        ¬(200 ≤ s ∧ s < 300))
    (hcanc : ∀ i, env.cancelDuringWait i = false)
    (hsnap : st.rateLimit.isSome = true)
    (s : Nat) (hd : HeaderMap) (er : ErrResp) (d : Bool)
    (hlast : env.outcome cfg.maxRetries = .response s hd er d) :
    ∃ e, (doRequest cfg env body st).result = .apiErr e ∧
      handleErrorResponse (doRequest cfg env body st).finalState s hd er = some e := by
  obtain ⟨-, -, -, s', hd', er', d', e', hout', hhandle, hres⟩ :=
    doLoop_allRetryable cfg env hout hcanc (cfg.maxRetries + 1) 0 st
      { data := body.getD [], pos := 0 } none (by omega) (by omega) hsnap
  rw [hlast] at hout'
  injection hout' with h1 h2 h3 h4
  subst h1; subst h2; subst h3
  exact ⟨e', hres, hhandle⟩

/-- C8 witness: three attempts all answering 500; the returned error is the
classification of the third 500 response. -/
theorem c8_witness :
    ∃ e, (doRequest cfg500 env500 none stPop).result = .apiErr e ∧
      handleErrorResponse (doRequest cfg500 env500 none stPop).finalState
        500 [] ErrResp.zero = some e :=
  c8_exhausted_retries_surface_last_classified_error cfg500 env500 none stPop
    (fun i _ => ⟨500, [], ErrResp.zero, true, rfl, rfl, by omega⟩)
    (fun _ => rfl) rfl 500 [] ErrResp.zero true rfl

/-- C9 is violated by the source: `handleErrorResponse`'s 429 branch reads
`c.RateLimit.Limit` and `c.RateLimit.Remaining` without a nil check, so on a
client whose snapshot was never populated (no prior response carried all
three rate-limit headers) a 429 response is a nil pointer dereference —
`doRequest` panics after one request instead of returning a RateLimitError. -/
theorem c9_429_with_nil_snapshot_dereferences_nil :
    handleErrorResponse freshClient 429 [] ErrResp.zero = none ∧
    (doRequest DefaultRetryConfig env429 none freshClient).result = .panicked ∧
    (doRequest DefaultRetryConfig env429 none freshClient).requests.length = 1 :=
  ⟨rfl, rfl, rfl⟩

end Iptuapi
